import Mathlib

/-!
Shallow embedding of the CareerNest job-board backend (`main.py`).

The MongoDB collections become Lean lists of records; `find_one` becomes
`List.find?`, `update_one` updates the first matching document,
`insert_one` appends, `delete_one` removes the first matching document,
and `count_documents` is the length of a filter.  Each request handler
becomes a pure function threading the database state explicitly; a raised
`HTTPException` becomes an `Except.error` carrying an `ApiError`.  The
outbound Google token-introspection call is modelled by a `GoogleResult`
value describing how the external world answers the one request.
Timestamps and generated UUIDs are passed in as parameters.
-/

namespace CareerNest

/-- Application status enumeration (`ApplicationStatus` in the source). -/
inductive ApplicationStatus where
  | pending
  | reviewing
  | shortlisted
  | rejected
  | accepted
deriving DecidableEq, Repr

/-- Company document, as stored by `create_company` / the seed data. -/
structure Company where
  id : String
  name : String
  industry : String
  website : Option String
  description : Option String
  logo_url : Option String
  location : String
  created_at : Nat
  total_jobs_posted : Nat
deriving DecidableEq, Repr

/-- Job document, as stored by `create_job`: the `JobCreate` fields plus
the server-added `id`, `is_active`, `views`, `applications_count`,
`created_at`, `updated_at`.  Enumerated fields are stored as their string
values (that is how MongoDB stores them and how the regex filters read
them).  The deadline is stored stringified (`str(...)` in `create_job`). -/
structure Job where
  title : String
  company_id : String
  category : String
  job_type : String
  experience_level : String
  location : String
  is_remote : Bool
  description : String
  responsibilities : List String
  requirements : List String
  nice_to_have : List String
  salary_min : Option Int
  salary_max : Option Int
  salary_currency : String
  application_deadline : Option String
  openings : Nat
  tags : List String
  id : String
  is_active : Bool
  views : Nat
  applications_count : Nat
  created_at : Nat
  updated_at : Nat
deriving DecidableEq, Repr

/-- Application document, as stored by `_submit_application`: the
`ApplicationCreate` fields (dumped into the document) plus the
server-added fields.  Python's `float` for `years_of_experience` is
modelled by `Rat`; the value is only carried, never computed with. -/
structure Application where
  applicant_name : String
  applicant_email : String
  google_access_token : Option String
  phone : Option String
  resume_url : String
  cover_letter : Option String
  linkedin_url : Option String
  portfolio_url : Option String
  years_of_experience : Option Rat
  current_institution : Option String
  graduation_year : Option Int
  id : String
  job_id : String
  job_title : String
  company_name : String
  status : ApplicationStatus
  applied_at : Nat
  updated_at : Nat
  notes : Option String
deriving DecidableEq, Repr

/-- Bookmark document (`bookmark_job`). -/
structure Bookmark where
  student_email : String
  job_id : String
  saved_at : Nat
deriving DecidableEq, Repr

/-- The four MongoDB collections. -/
structure Db where
  companies : List Company
  jobs : List Job
  applications : List Application
  bookmarks : List Bookmark
deriving DecidableEq, Repr

/-- Request body of `POST /jobs/{job_id}/apply` (`ApplicationCreate`). -/
structure ApplicationCreate where
  applicant_name : String
  applicant_email : String
  google_access_token : Option String := none
  phone : Option String := none
  resume_url : String
  cover_letter : Option String := none
  linkedin_url : Option String := none
  portfolio_url : Option String := none
  years_of_experience : Option Rat := some 0
  current_institution : Option String := none
  graduation_year : Option Int := none
deriving DecidableEq, Repr

/-- Request body of `POST /applications` (`ApplicationCreateCompat`),
the frontend-friendly field names.  `EmailStr` is modelled as `String`. -/
structure ApplicationCreateCompat where
  job_id : String
  full_name : String
  email : String
  google_access_token : Option String := none
  phone : Option String := none
  resume_url : String
  cover_letter : Option String := none
  linkedin_url : Option String := none
  portfolio_url : Option String := none
  years_experience : Option Rat := some 0
  institution : Option String := none
  graduation_year : Option Int := none
deriving DecidableEq, Repr

/-- The `HTTPException`s the modelled handlers raise, by HTTP status:
404 `notFound`, 400 `inactive` ("This job listing is no longer active"),
401 `unauthorized` (invalid Google token), 403 `forbidden` (email
mismatch with the Google account), 409 `conflict` (duplicate). -/
inductive ApiError where
  | notFound
  | inactive
  | unauthorized
  | forbidden
  | conflict
deriving DecidableEq, Repr

/-- HTTP status code of each modelled error. -/
def ApiError.statusCode : ApiError → Nat
  | .notFound => 404
  | .inactive => 400
  | .unauthorized => 401
  | .forbidden => 403
  | .conflict => 409

/-- Body of a received introspection response: `resp.json()` either
raises (unexpected payload) or yields a JSON object whose `email` key is
absent (`none`) or a string. -/
inductive GoogleBody where
  | parseError
  | json (email : Option String)
deriving DecidableEq, Repr

/-- How the external world answers the one `requests.get` call to the
Google token-introspection endpoint: either the call itself raises
(network error, timeout, ...), or a response arrives with a status code
and a body. -/
inductive GoogleResult where
  | netError
  | response (status : Nat) (body : GoogleBody)
deriving DecidableEq, Repr

end CareerNest

namespace CareerNest

/-- Update the first element satisfying `p` (MongoDB `update_one`). -/
def updateFirst (f : α → α) (p : α → Bool) : List α → List α
  | [] => []
  | x :: xs => if p x then f x :: xs else x :: updateFirst f p xs

/-- Remove the first element satisfying `p` and report how many were
removed (MongoDB `delete_one` and its `deleted_count`). -/
def deleteOne (p : α → Bool) : List α → List α × Nat
  | [] => ([], 0)
  | x :: xs =>
    if p x then (xs, 1)
    else
      let r := deleteOne p xs
      (x :: r.1, r.2)

/-- The `col_jobs.find_one({"id": job_id})` lookup. -/
def findJob (db : Db) (job_id : String) : Option Job :=
  db.jobs.find? (fun j => j.id == job_id)

/-- The duplicate lookup
`col_applications.find_one({"job_id": job_id, "applicant_email": email})`,
reduced to its truthiness test. -/
def hasApplication (db : Db) (job_id : String) (email : String) : Bool :=
  (db.applications.find? (fun a => a.job_id == job_id && a.applicant_email == email)).isSome

/-- The optional Google-token verification block of `_submit_application`,
lines 468-482 of `main.py`.  The source guards the block with
`if data.google_access_token:` — Python truthiness — so both an absent
token and the empty-string token skip verification entirely.  Returns
`some e` when the block raises the `HTTPException` `e` and `none` when
it falls through (no/empty token, verification succeeded, or the
external failure was swallowed by the bare `except Exception: pass`). -/
def verifyStep (ext : GoogleResult) (token : Option String) (email : String) : Option ApiError :=
  match token with
  | none => none
  | some t =>
    if t == "" then none
    else
      match ext with
      | .netError => none
      | .response status body =>
        if status != 200 then some .unauthorized
        else
          match body with
          | .parseError => none
          | .json e => if e != some email then some .forbidden else none

/-- The `app_doc` dictionary built inside `_submit_application`:
`data.model_dump()` plus the server-added fields. -/
def buildAppDoc (data : ApplicationCreate) (job_id : String) (job : Job)
    (company : Option Company) (fresh_id : String) (now : Nat) : Application :=
  { applicant_name := data.applicant_name
    applicant_email := data.applicant_email
    google_access_token := data.google_access_token
    phone := data.phone
    resume_url := data.resume_url
    cover_letter := data.cover_letter
    linkedin_url := data.linkedin_url
    portfolio_url := data.portfolio_url
    years_of_experience := data.years_of_experience
    current_institution := data.current_institution
    graduation_year := data.graduation_year
    id := fresh_id
    job_id := job_id
    job_title := job.title
    company_name := match company with | some c => c.name | none => "Unknown"
    status := .pending
    applied_at := now
    updated_at := now
    notes := none }

/-- Core application workflow `_submit_application` (lines 460-503).
The database is threaded explicitly; every raise returns the database
untouched, the writes (`insert_one` then the counter `update_one`)
happen only on the success path, exactly as in the source. -/
def _submit_application (ext : GoogleResult) (db : Db) (job_id : String)
    (data : ApplicationCreate) (fresh_id : String) (now : Nat) :
    Db × Except ApiError Application :=
  match findJob db job_id with
  | none => (db, .error .notFound)
  | some job =>
    if !job.is_active then (db, .error .inactive)
    else
      match verifyStep ext data.google_access_token data.applicant_email with
      | some e => (db, .error e)
      | none =>
        if hasApplication db job_id data.applicant_email then (db, .error .conflict)
        else
          let company := db.companies.find? (fun c => c.id == job.company_id)
          let app_doc := buildAppDoc data job_id job company fresh_id now
          ({ db with
              applications := db.applications ++ [app_doc]
              jobs := updateFirst (fun j => { j with applications_count := j.applications_count + 1 })
                        (fun j => j.id == job_id) db.jobs },
           .ok app_doc)

/-- Query parameters of `GET /jobs`, with the route's defaults. -/
structure ListJobsParams where
  search : Option String := none
  category : Option String := none
  job_type : Option String := none
  experience_level : Option String := none
  location : Option String := none
  is_remote : Option Bool := none
  salary_min : Option Int := none
  active_only : Bool := true
  sort_by : String := "newest"
  page : Nat := 1
  page_size : Nat := 10
deriving DecidableEq, Repr

/-- Contiguous-subsequence test on character lists. -/
def segIn (pat : List Char) : List Char → Bool
  | [] => pat.isEmpty
  | c :: rest => pat.isPrefixOf (c :: rest) || segIn pat rest

/-- Case-insensitive substring test, modelling the
`{"$regex": pat.strip(), "$options": "i"}` matcher of `list_jobs` on the
(literal) patterns the route receives; regex metacharacters are not
modelled, and the theorems below carry this clause opaquely. -/
def strPat (pat s : String) : Bool :=
  segIn pat.trim.toLower.toList s.toLower.toList

/-- One optional regex clause of the `list_jobs` query dictionary: the
clause is added only when the parameter is truthy (`if category:` skips
both `None` and the empty string). -/
def regexClause (param : Option String) (field : String) : Bool :=
  match param with
  | none => true
  | some s => if s == "" then true else strPat s field

/-- The `$or` free-text search clause over title, description and tags. -/
def searchClause (param : Option String) (j : Job) : Bool :=
  match param with
  | none => true
  | some s =>
    if s == "" then true
    else strPat s j.title || strPat s j.description || j.tags.any (fun t => strPat s t)

/-- The `{"salary_max": {"$gte": salary_min}}` clause: added whenever
`salary_min is not None`; under MongoDB's typed comparison a document
whose `salary_max` is null never satisfies a numeric `$gte`. -/
def salaryClause (salary_floor : Option Int) (salary_ceiling : Option Int) : Bool :=
  match salary_floor with
  | none => true
  | some x =>
    match salary_ceiling with
    | none => false
    | some m => decide (x ≤ m)

/-- Every clause of the `list_jobs` query dictionary except the salary
one, conjoined (MongoDB conjoins all top-level clauses). -/
def matchesExceptSalary (p : ListJobsParams) (j : Job) : Bool :=
  (!p.active_only || j.is_active) &&
  searchClause p.search j &&
  regexClause p.category j.category &&
  regexClause p.job_type j.job_type &&
  regexClause p.experience_level j.experience_level &&
  regexClause p.location j.location &&
  (match p.is_remote with | none => true | some b => j.is_remote == b)

/-- The whole `list_jobs` query dictionary `q`, as a predicate. -/
def matchesQuery (p : ListJobsParams) (j : Job) : Bool :=
  matchesExceptSalary p j && salaryClause p.salary_min j.salary_max

/-- BSON-order `≤` on an optional numeric field: null sorts before every
number. -/
def optIntLe (a b : Option Int) : Bool :=
  match a, b with
  | none, _ => true
  | some _, none => false
  | some x, some y => decide (x ≤ y)

/-- The `sort_map` of `list_jobs` with its fallback: an unrecognized key
sorts newest-first. -/
def sortJobs (key : String) (l : List Job) : List Job :=
  match key with
  | "oldest" => l.mergeSort (fun a b => decide (a.created_at ≤ b.created_at))
  | "salary_high" => l.mergeSort (fun a b => optIntLe b.salary_max a.salary_max)
  | "salary_low" => l.mergeSort (fun a b => optIntLe a.salary_min b.salary_min)
  | "most_applied" => l.mergeSort (fun a b => decide (b.applications_count ≤ a.applications_count))
  | _ => l.mergeSort (fun a b => decide (b.created_at ≤ a.created_at))

/-- The `_enrich_job` helper: attach the owning company (or `none`). -/
def enrichJob (db : Db) (j : Job) : Job × Option Company :=
  (j, db.companies.find? (fun c => c.id == j.company_id))

/-- The sorted list of all documents matching the query — what the
cursor `col_jobs.find(q).sort(sort_order)` enumerates. -/
def sortedMatches (db : Db) (p : ListJobsParams) : List Job :=
  sortJobs p.sort_by (db.jobs.filter (matchesQuery p))

/-- The `pagination` object of the `list_jobs` response. -/
structure Pagination where
  total : Nat
  page : Nat
  page_size : Nat
  total_pages : Nat
deriving DecidableEq, Repr

/-- The `list_jobs` response. -/
structure JobsPage where
  jobs : List (Job × Option Company)
  pagination : Pagination
deriving DecidableEq, Repr

/-- Route `GET /jobs` (`list_jobs`, lines 382-429): count the matches,
then return the `skip = (page-1)*page_size` / `limit page_size` window of
the sorted cursor, each entry enriched, plus the pagination object with
`total_pages = max(1, ceil(total / page_size))`. -/
def list_jobs (db : Db) (p : ListJobsParams) : JobsPage :=
  let total := (db.jobs.filter (matchesQuery p)).length
  let skip := (p.page - 1) * p.page_size
  let window := ((sortedMatches db p).drop skip).take p.page_size
  { jobs := window.map (enrichJob db)
    pagination :=
      { total := total
        page := p.page
        page_size := p.page_size
        total_pages := max 1 ((total + p.page_size - 1) / p.page_size) } }

/-- Route `GET /jobs/{job_id}` (`get_job`, lines 432-439): 404 when the
job is absent; otherwise `$inc` the stored `views` by one, set the
in-hand document's `views` to its pre-read value plus one, and return it
enriched. -/
def get_job (db : Db) (job_id : String) : Db × Except ApiError (Job × Option Company) :=
  match findJob db job_id with
  | none => (db, .error .notFound)
  | some job =>
    let db' := { db with
      jobs := updateFirst (fun j => { j with views := j.views + 1 })
                (fun j => j.id == job_id) db.jobs }
    (db', .ok (enrichJob db' { job with views := job.views + 1 }))

/-- Route `DELETE /jobs/{job_id}` (`delete_job`, lines 452-456):
`delete_one` on the jobs collection, 404 when its `deleted_count` is 0. -/
def delete_job (db : Db) (job_id : String) : Db × Except ApiError Unit :=
  let r := deleteOne (fun j => j.id == job_id) db.jobs
  if r.2 == 0 then ({ db with jobs := r.1 }, .error .notFound)
  else ({ db with jobs := r.1 }, .ok ())

/-- Response payload of the two application routes. -/
structure ApplyResponse where
  application_id : String
  application : Application
deriving DecidableEq, Repr

/-- Route `POST /jobs/{job_id}/apply` (`apply_for_job`). -/
def apply_for_job (ext : GoogleResult) (db : Db) (job_id : String)
    (data : ApplicationCreate) (fresh_id : String) (now : Nat) :
    Db × Except ApiError ApplyResponse :=
  match _submit_application ext db job_id data fresh_id now with
  | (db', .ok a) => (db', .ok { application_id := a.id, application := a })
  | (db', .error e) => (db', .error e)

/-- Route `POST /applications` (`apply_for_job_compat`): builds the
canonical `ApplicationCreate` from the frontend shape field by field,
exactly as lines 518-530 of the source, then delegates. -/
def apply_for_job_compat (ext : GoogleResult) (db : Db)
    (data : ApplicationCreateCompat) (fresh_id : String) (now : Nat) :
    Db × Except ApiError ApplyResponse :=
  let mapped : ApplicationCreate :=
    { applicant_name := data.full_name
      applicant_email := data.email
      google_access_token := data.google_access_token
      phone := data.phone
      resume_url := data.resume_url
      cover_letter := data.cover_letter
      linkedin_url := data.linkedin_url
      portfolio_url := data.portfolio_url
      years_of_experience := data.years_experience
      current_institution := data.institution
      graduation_year := data.graduation_year }
  match _submit_application ext db data.job_id mapped fresh_id now with
  | (db', .ok a) => (db', .ok { application_id := a.id, application := a })
  | (db', .error e) => (db', .error e)

/-- Renaming stated from the spec's words, for the refinement claim about
the two entry points: "full name"/"email"/"years experience"/"institution"
become the canonical "applicant name"/"applicant email"/"years of
experience"/"current institution", every other field keeps its name, and
no value changes. -/
def compatRename (d : ApplicationCreateCompat) : ApplicationCreate :=
  { applicant_name := d.full_name
    applicant_email := d.email
    google_access_token := d.google_access_token
    phone := d.phone
    resume_url := d.resume_url
    cover_letter := d.cover_letter
    linkedin_url := d.linkedin_url
    portfolio_url := d.portfolio_url
    years_of_experience := d.years_experience
    current_institution := d.institution
    graduation_year := d.graduation_year }

/-- The denormalized-counter invariant: every job's `applications_count`
equals the number of stored applications referencing it. -/
def counterInvariant (db : Db) : Prop :=
  ∀ j ∈ db.jobs, j.applications_count = db.applications.countP (fun x => x.job_id == j.id)

/-! Concrete sample documents, used to evaluate the theorems below on
closed inputs. -/

/-- Sample company. -/
def companyW : Company :=
  { id := "c1", name := "TechNova", industry := "Software", website := none,
    description := none, logo_url := none, location := "Bangalore",
    created_at := 0, total_jobs_posted := 1 }

/-- Sample active job owned by `companyW`. -/
def jobW : Job :=
  { title := "Backend Intern", company_id := "c1", category := "Technology",
    job_type := "Internship", experience_level := "Entry Level",
    location := "Bangalore", is_remote := true, description := "Build APIs",
    responsibilities := [], requirements := [], nice_to_have := [],
    salary_min := some 15000, salary_max := some 25000, salary_currency := "INR",
    application_deadline := none, openings := 1, tags := ["python"],
    id := "j1", is_active := true, views := 0, applications_count := 0,
    created_at := 0, updated_at := 0 }

/-- Sample inactive job. -/
def jobInactiveW : Job :=
  { jobW with id := "j2", is_active := false }

/-- Sample application request without a Google token. -/
def dataW : ApplicationCreate :=
  { applicant_name := "Ada", applicant_email := "ada@x.com", resume_url := "cv" }

/-- Sample application request with a Google token. -/
def dataTokW : ApplicationCreate :=
  { dataW with google_access_token := some "tok" }

/-- Sample application request whose Google token is the empty string —
falsy in Python, so the source skips the verification block for it. -/
def dataEmptyTokW : ApplicationCreate :=
  { dataW with google_access_token := some "" }

/-- Empty database. -/
def dbEmpty : Db :=
  { companies := [], jobs := [], applications := [], bookmarks := [] }

/-- Database with one company, one active and one inactive job, and no
applications. -/
def dbW : Db :=
  { companies := [companyW], jobs := [jobW, jobInactiveW], applications := [],
    bookmarks := [] }

/-- The application document `_submit_application` builds for `dataW`
against `jobW` in `dbW` with fresh id "a1" at time 7. -/
def appW : Application :=
  buildAppDoc dataW "j1" jobW (some companyW) "a1" 7

/-- The database after that successful submission. -/
def dbWafter : Db :=
  { companies := [companyW],
    jobs := [{ jobW with applications_count := 1 }, jobInactiveW],
    applications := [appW], bookmarks := [] }

/-- Sample bookmark referencing `jobW`. -/
def bookmarkW : Bookmark :=
  { student_email := "ada@x.com", job_id := "j1", saved_at := 9 }

/-- Database holding `jobW` together with an application and a bookmark
that reference it, to exercise the delete frame. -/
def dbDel : Db :=
  { companies := [companyW], jobs := [jobW, jobInactiveW],
    applications := [appW], bookmarks := [bookmarkW] }

/-- Sample frontend-shaped request. -/
def compatW : ApplicationCreateCompat :=
  { job_id := "j1", full_name := "Ada", email := "ada@x.com", resume_url := "cv" }

/-- Sample listing query: only the salary floor, at the exact boundary of
`jobW`'s maximum. -/
def pSalW : ListJobsParams :=
  { salary_min := some 25000 }

/-- Sample listing query for the pagination claim. -/
def pPageW : ListJobsParams :=
  { page := 2, page_size := 1, active_only := false }

/-- Sample job with no defined maximum salary. -/
def jobNoSalW : Job :=
  { jobW with id := "j3", salary_max := none }

/-- Database for the salary-filter witness: one listing whose maximum
sits exactly on the floor, one with no maximum at all. -/
def dbSalW : Db :=
  { companies := [companyW], jobs := [jobW, jobNoSalW], applications := [],
    bookmarks := [] }

/-! Helper lemmas about first-match list operations. -/

theorem find?_some_decomp (p : α → Bool) (l : List α) (a : α) (h : l.find? p = some a) :
    l = l.takeWhile (fun x => !(p x)) ++ a :: (l.dropWhile (fun x => !(p x))).tail ∧
      p a = true ∧ ∀ x ∈ l.takeWhile (fun x => !(p x)), p x = false := by
  induction l with
  | nil => simp at h
  | cons x xs ih =>
    by_cases hp : p x
    · rw [List.find?_cons_of_pos _ hp] at h
      cases h
      simp [List.takeWhile, List.dropWhile, hp]
    · rw [List.find?_cons_of_neg _ hp] at h
      obtain ⟨h1, h2, h3⟩ := ih h
      have hb : (!(p x)) = true := by simp [hp]
      constructor
      · simpa [List.takeWhile, List.dropWhile, hb] using congrArg (x :: ·) h1
      · refine ⟨h2, ?_⟩
        intro y hy
        rw [List.takeWhile_cons, if_pos hb] at hy
        rcases List.mem_cons.mp hy with rfl | hy'
        · simpa using hp
        · exact h3 y hy'

theorem updateFirst_eq_of_find? (f : α → α) (p : α → Bool) (l : List α) (a : α)
    (h : l.find? p = some a) :
    updateFirst f p l =
      l.takeWhile (fun x => !(p x)) ++ f a :: (l.dropWhile (fun x => !(p x))).tail := by
  induction l with
  | nil => simp at h
  | cons x xs ih =>
    by_cases hp : p x
    · rw [List.find?_cons_of_pos _ hp] at h
      cases h
      simp [updateFirst, List.takeWhile, List.dropWhile, hp]
    · rw [List.find?_cons_of_neg _ hp] at h
      have hb : (!(p x)) = true := by simp [hp]
      simp only [updateFirst, if_neg hp, List.takeWhile_cons, if_pos hb,
        List.dropWhile_cons, hb, ite_true, List.cons_append]
      exact congrArg (x :: ·) (ih h)

theorem find?_updateFirst (f : α → α) (p : α → Bool) (l : List α) (a : α)
    (h : l.find? p = some a) (hf : p (f a) = true) :
    (updateFirst f p l).find? p = some (f a) := by
  induction l with
  | nil => simp at h
  | cons x xs ih =>
    by_cases hp : p x
    · rw [List.find?_cons_of_pos _ hp] at h
      cases h
      simp [updateFirst, hp, List.find?_cons_of_pos _ hf]
    · rw [List.find?_cons_of_neg _ hp] at h
      simp only [updateFirst, if_neg hp]
      rw [List.find?_cons_of_neg _ hp]
      exact ih h

theorem deleteOne_of_find?_none (p : α → Bool) (l : List α) (h : l.find? p = none) :
    deleteOne p l = (l, 0) := by
  induction l with
  | nil => simp [deleteOne]
  | cons x xs ih =>
    by_cases hp : p x
    · rw [List.find?_cons_of_pos _ hp] at h
      cases h
    · rw [List.find?_cons_of_neg _ hp] at h
      simp [deleteOne, hp, ih h]

theorem deleteOne_of_find?_some (p : α → Bool) (l : List α) (a : α)
    (h : l.find? p = some a) :
    deleteOne p l =
      (l.takeWhile (fun x => !(p x)) ++ (l.dropWhile (fun x => !(p x))).tail, 1) := by
  induction l with
  | nil => simp at h
  | cons x xs ih =>
    by_cases hp : p x
    · rw [List.find?_cons_of_pos _ hp] at h
      cases h
      simp [deleteOne, List.takeWhile, List.dropWhile, hp]
    · rw [List.find?_cons_of_neg _ hp] at h
      have hb : (!(p x)) = true := by simp [hp]
      simp only [deleteOne, if_neg hp, List.takeWhile_cons, if_pos hb,
        List.dropWhile_cons, hb, ite_true, List.cons_append]
      rw [ih h]

/-! Branch lemmas for `_submit_application`: one per exit of the source
routine, each conditioned on exactly the checks that precede it. -/

theorem submit_of_findJob_none (ext : GoogleResult) (db : Db) (job_id : String)
    (data : ApplicationCreate) (fresh_id : String) (now : Nat)
    (h : findJob db job_id = none) :
    _submit_application ext db job_id data fresh_id now = (db, .error .notFound) := by
  unfold _submit_application
  rw [h]

theorem submit_of_inactive (ext : GoogleResult) (db : Db) (job_id : String)
    (data : ApplicationCreate) (fresh_id : String) (now : Nat) (job : Job)
    (hj : findJob db job_id = some job) (ha : job.is_active = false) :
    _submit_application ext db job_id data fresh_id now = (db, .error .inactive) := by
  unfold _submit_application
  rw [hj]
  simp [ha]

theorem submit_of_verify_error (ext : GoogleResult) (db : Db) (job_id : String)
    (data : ApplicationCreate) (fresh_id : String) (now : Nat) (job : Job) (e : ApiError)
    (hj : findJob db job_id = some job) (ha : job.is_active = true)
    (hv : verifyStep ext data.google_access_token data.applicant_email = some e) :
    _submit_application ext db job_id data fresh_id now = (db, .error e) := by
  unfold _submit_application
  rw [hj]
  simp [ha, hv]

theorem submit_of_duplicate (ext : GoogleResult) (db : Db) (job_id : String)
    (data : ApplicationCreate) (fresh_id : String) (now : Nat) (job : Job)
    (hj : findJob db job_id = some job) (ha : job.is_active = true)
    (hv : verifyStep ext data.google_access_token data.applicant_email = none)
    (hd : hasApplication db job_id data.applicant_email = true) :
    _submit_application ext db job_id data fresh_id now = (db, .error .conflict) := by
  unfold _submit_application
  rw [hj]
  simp [ha, hv, hd]

theorem submit_of_fresh (ext : GoogleResult) (db : Db) (job_id : String)
    (data : ApplicationCreate) (fresh_id : String) (now : Nat) (job : Job)
    (hj : findJob db job_id = some job) (ha : job.is_active = true)
    (hv : verifyStep ext data.google_access_token data.applicant_email = none)
    (hd : hasApplication db job_id data.applicant_email = false) :
    _submit_application ext db job_id data fresh_id now =
      ({ db with
          applications := db.applications ++
            [buildAppDoc data job_id job
              (db.companies.find? (fun c => c.id == job.company_id)) fresh_id now]
          jobs := updateFirst (fun j => { j with applications_count := j.applications_count + 1 })
                    (fun j => j.id == job_id) db.jobs },
       .ok (buildAppDoc data job_id job
              (db.companies.find? (fun c => c.id == job.company_id)) fresh_id now)) := by
  unfold _submit_application
  rw [hj]
  simp [ha, hv, hd]

/-- The duplicate-lookup truthiness, as an existence statement. -/
theorem hasApplication_iff (db : Db) (job_id : String) (email : String) :
    hasApplication db job_id email = true ↔
      ∃ x ∈ db.applications, x.job_id = job_id ∧ x.applicant_email = email := by
  unfold hasApplication
  rw [List.find?_isSome]
  simp

/-- Sorting never changes how many documents the cursor yields. -/
theorem sortJobs_length (key : String) (l : List Job) :
    (sortJobs key l).length = l.length := by
  unfold sortJobs
  split <;> exact List.length_mergeSort l

/-- `(T + ps - 1) / ps * ps` is at least `T`: the ceiling division covers
all matches. -/
theorem ceil_div_lower (T ps : Nat) (hps : 1 ≤ ps) :
    T ≤ ((T + ps - 1) / ps) * ps := by
  have hdm := Nat.div_add_mod (T + ps - 1) ps
  have hmod : (T + ps - 1) % ps < ps := Nat.mod_lt _ hps
  rw [Nat.mul_comm]
  generalize hq : (T + ps - 1) / ps = q at hdm ⊢
  generalize hr : (T + ps - 1) % ps = r at hdm hmod
  generalize hQ : ps * q = Q at hdm ⊢
  omega

/-- One page fewer than the ceiling does not cover all matches. -/
theorem ceil_div_upper (T ps : Nat) (hps : 1 ≤ ps) (hT : 0 < T) :
    (((T + ps - 1) / ps) - 1) * ps < T := by
  have hdm := Nat.div_mul_le_self (T + ps - 1) ps
  have hsub : (((T + ps - 1) / ps) - 1) * ps = ((T + ps - 1) / ps) * ps - ps := by
    rw [Nat.sub_mul, Nat.one_mul]
  generalize hq : (T + ps - 1) / ps = q at hdm hsub ⊢
  generalize hQ : q * ps = Q at hdm hsub
  generalize hP : (q - 1) * ps = P at hsub ⊢
  omega

/-- The ceiling division is positive as soon as there is a match. -/
theorem ceil_div_pos (T ps : Nat) (hps : 1 ≤ ps) (hT : 0 < T) :
    1 ≤ (T + ps - 1) / ps := by
  rw [Nat.le_div_iff_mul_le hps]
  omega

/-- Inversion of the success path of `_submit_application`: a successful
submission passed every check, returned exactly the built document, and
performed exactly the one insert and the one counter increment. -/
theorem submit_ok_inv (ext : GoogleResult) (db : Db) (job_id : String)
    (data : ApplicationCreate) (fresh_id : String) (now : Nat)
    (db' : Db) (a : Application)
    (h : _submit_application ext db job_id data fresh_id now = (db', .ok a)) :
    ∃ job, findJob db job_id = some job ∧ job.is_active = true ∧
      verifyStep ext data.google_access_token data.applicant_email = none ∧
      hasApplication db job_id data.applicant_email = false ∧
      a = buildAppDoc data job_id job
            (db.companies.find? (fun c => c.id == job.company_id)) fresh_id now ∧
      db' = { db with
        applications := db.applications ++ [a]
        jobs := updateFirst (fun j => { j with applications_count := j.applications_count + 1 })
                  (fun j => j.id == job_id) db.jobs } := by
  unfold _submit_application at h
  split at h
  · simp at h
  next job hjob =>
    split at h
    · simp at h
    next hact =>
      split at h
      · simp at h
      next hver =>
        split at h
        · simp at h
        next hdup =>
          obtain ⟨hdb, ha⟩ := Prod.mk.injEq .. ▸ h
          refine ⟨job, hjob, ?_, hver, ?_, ?_, ?_⟩
          · simpa using hact
          · simpa using hdup
          · exact (Except.ok.injEq .. ▸ ha).symm
          · rw [← hdb]
            cases ha
            rfl

/-- The verification block can only raise 401 or 403, never the 409. -/
theorem verifyStep_ne_conflict (ext : GoogleResult) (token : Option String) (email : String) :
    verifyStep ext token email ≠ some .conflict := by
  unfold verifyStep
  rcases token with _ | t
  · simp
  split
  · simp
  rcases ext with _ | ⟨s, b⟩
  · simp
  rcases b with _ | e <;> simp only []
  · split <;> simp
  · split
    · simp
    · split <;> simp

/-- C9: every failing path of `_submit_application` — job not found,
inactive listing, invalid token, email mismatch with the Google account,
duplicate application — returns the database exactly as it was: no
Application document is inserted and no job's `applications_count` is
incremented on any error; the insert and the increment happen only on
the success path. -/
theorem submit_error_frame (ext : GoogleResult) (db : Db) (job_id : String)
    (data : ApplicationCreate) (fresh_id : String) (now : Nat)
    (db' : Db) (e : ApiError)
    (h : _submit_application ext db job_id data fresh_id now = (db', .error e)) :
    db' = db := by
  unfold _submit_application at h
  split at h
  · exact (congrArg Prod.fst h).symm
  · split at h
    · exact (congrArg Prod.fst h).symm
    · split at h
      · exact (congrArg Prod.fst h).symm
      · split at h
        · exact (congrArg Prod.fst h).symm
        · exact absurd (congrArg Prod.snd h) (by simp)

/-- Witness for the error frame: re-submitting the already-stored
application fails with 409 and hands back the untouched database. -/
theorem submit_error_frame_witness :
    _submit_application .netError dbWafter "j1" dataW "a2" 8 =
      (dbWafter, .error .conflict) ∧
    dbWafter = dbWafter :=
  ⟨rfl, submit_error_frame .netError dbWafter "j1" dataW "a2" 8 dbWafter .conflict rfl⟩

/-- C3: the failure checks of `_submit_application` are evaluated in a
fixed order — 404 if the job is absent; 400 if its active flag is false,
regardless of any other input validity; then the identity-verification
failures; then the duplicate 409 — so an input that would both fail
verification and be a duplicate reports the verification failure (which
is never the 409), not Conflict. -/
theorem submit_check_order (ext : GoogleResult) (db : Db) (job_id : String)
    (data : ApplicationCreate) (fresh_id : String) (now : Nat) :
    (findJob db job_id = none →
      _submit_application ext db job_id data fresh_id now = (db, .error .notFound)) ∧
    (∀ job, findJob db job_id = some job → job.is_active = false →
      _submit_application ext db job_id data fresh_id now = (db, .error .inactive)) ∧
    (∀ job e, findJob db job_id = some job → job.is_active = true →
      verifyStep ext data.google_access_token data.applicant_email = some e →
      _submit_application ext db job_id data fresh_id now = (db, .error e)) ∧
    (∀ job e, findJob db job_id = some job → job.is_active = true →
      verifyStep ext data.google_access_token data.applicant_email = some e →
      hasApplication db job_id data.applicant_email = true →
      _submit_application ext db job_id data fresh_id now = (db, .error e) ∧
        e ≠ .conflict) ∧
    (∀ job, findJob db job_id = some job → job.is_active = true →
      verifyStep ext data.google_access_token data.applicant_email = none →
      hasApplication db job_id data.applicant_email = true →
      _submit_application ext db job_id data fresh_id now = (db, .error .conflict)) := by
  refine ⟨?_, ?_, ?_, ?_, ?_⟩
  · intro h
    exact submit_of_findJob_none ext db job_id data fresh_id now h
  · intro job hj ha
    exact submit_of_inactive ext db job_id data fresh_id now job hj ha
  · intro job e hj ha hv
    exact submit_of_verify_error ext db job_id data fresh_id now job e hj ha hv
  · intro job e hj ha hv _
    refine ⟨submit_of_verify_error ext db job_id data fresh_id now job e hj ha hv, ?_⟩
    intro he
    exact verifyStep_ne_conflict ext data.google_access_token data.applicant_email (he ▸ hv)
  · intro job hj ha hv hd
    exact submit_of_duplicate ext db job_id data fresh_id now job hj ha hv hd

/-- Witness for the check order: an absent job 404s, an inactive listing
400s, and an invalid token on an input that is also a duplicate 401s
instead of 409ing. -/
theorem submit_check_order_witness :
    _submit_application .netError dbEmpty "j1" dataW "a1" 0 =
      (dbEmpty, .error .notFound) ∧
    _submit_application .netError dbW "j2" dataW "a1" 0 = (dbW, .error .inactive) ∧
    (_submit_application (.response 500 (.json (some "ada@x.com"))) dbWafter "j1"
        dataTokW "a2" 8 = (dbWafter, .error .unauthorized) ∧
      ApiError.unauthorized ≠ ApiError.conflict) :=
  ⟨(submit_check_order .netError dbEmpty "j1" dataW "a1" 0).1 rfl,
   (submit_check_order .netError dbW "j2" dataW "a1" 0).2.1 jobInactiveW rfl rfl,
   (submit_check_order (.response 500 (.json (some "ada@x.com"))) dbWafter "j1"
      dataTokW "a2" 8).2.2.2.1 { jobW with applications_count := 1 } .unauthorized
      rfl rfl rfl rfl⟩

/-- Counterexample to C4 as stated: the empty string is a supplied
identity token, yet the source's truthiness guard
`if data.google_access_token:` skips the whole verification block for
it, so a non-success (500) external response does not fail the
submission with 401 — the application is accepted. -/
theorem empty_token_verification_skipped_counterexample :
    dataEmptyTokW.google_access_token = some "" ∧
    _submit_application (.response 500 (.json (some "eve@x.com"))) dbW "j1"
        dataEmptyTokW "a1" 7 =
      ({ companies := [companyW],
         jobs := [{ jobW with applications_count := 1 }, jobInactiveW],
         applications := [buildAppDoc dataEmptyTokW "j1" jobW (some companyW) "a1" 7],
         bookmarks := [] },
       .ok (buildAppDoc dataEmptyTokW "j1" jobW (some companyW) "a1" 7)) ∧
    (_submit_application (.response 500 (.json (some "eve@x.com"))) dbW "j1"
        dataEmptyTokW "a1" 7).2 ≠ .error .unauthorized :=
  ⟨rfl, rfl, by
    intro hc
    rw [show (_submit_application (.response 500 (.json (some "eve@x.com"))) dbW "j1"
          dataEmptyTokW "a1" 7).2 =
        Except.ok (buildAppDoc dataEmptyTokW "j1" jobW (some companyW) "a1" 7) from rfl] at hc
    exact Except.noConfusion hc⟩

/-- C4 as amended: with a non-empty identity token supplied, the
verification step has exactly three outcomes — a non-200 response fails
the submission with 401; a 200 response whose verified email differs
from the supplied applicant email fails it with 403; any other failure
of the external call (network error / timeout, unexpected payload) is
swallowed and the step falls through as if skipped.  Without a token,
or with the empty-string token that Python truthiness treats as absent,
no verification occurs at all. -/
theorem submit_verification_outcomes (db : Db) (job_id : String)
    (data : ApplicationCreate) (fresh_id : String) (now : Nat) (job : Job) (t : String)
    (hj : findJob db job_id = some job) (ha : job.is_active = true)
    (ht : data.google_access_token = some t) (htne : t ≠ "") :
    (∀ s b, s ≠ 200 →
      _submit_application (.response s b) db job_id data fresh_id now =
        (db, .error .unauthorized)) ∧
    (∀ e, e ≠ some data.applicant_email →
      _submit_application (.response 200 (.json e)) db job_id data fresh_id now =
        (db, .error .forbidden)) ∧
    verifyStep .netError data.google_access_token data.applicant_email = none ∧
    verifyStep (.response 200 .parseError) data.google_access_token
      data.applicant_email = none ∧
    (∀ ext email, verifyStep ext none email = none) ∧
    (∀ ext email, verifyStep ext (some "") email = none) := by
  have hbe : (t == "") = false := beq_eq_false_iff_ne.mpr htne
  refine ⟨?_, ?_, ?_, ?_, ?_, ?_⟩
  · intro s b hs
    refine submit_of_verify_error _ db job_id data fresh_id now job .unauthorized hj ha ?_
    unfold verifyStep
    rw [ht]
    simp [hbe, bne_iff_ne, hs]
  · intro e he
    refine submit_of_verify_error _ db job_id data fresh_id now job .forbidden hj ha ?_
    unfold verifyStep
    rw [ht]
    simp [hbe, bne_iff_ne, he]
  · unfold verifyStep
    rw [ht]
    simp [hbe]
  · unfold verifyStep
    rw [ht]
    simp [hbe]
  · intro ext email
    rfl
  · intro ext email
    rfl

/-- Witness for the amended verification outcomes at a concrete
database: with the non-empty token, a 500 answer 401s, a 200 answer for
a different account 403s, a network failure leaves `verifyStep` silent;
and the empty-string token leaves it silent for every external
behaviour. -/
theorem submit_verification_outcomes_witness :
    findJob dbW "j1" = some jobW ∧ jobW.is_active = true ∧
    dataTokW.google_access_token = some "tok" ∧ "tok" ≠ "" ∧
    _submit_application (.response 500 (.json (some "ada@x.com"))) dbW "j1"
      dataTokW "a1" 7 = (dbW, .error .unauthorized) ∧
    _submit_application (.response 200 (.json (some "eve@x.com"))) dbW "j1"
      dataTokW "a1" 7 = (dbW, .error .forbidden) ∧
    verifyStep .netError dataTokW.google_access_token dataTokW.applicant_email = none ∧
    verifyStep (.response 500 (.json (some "eve@x.com"))) (some "") "ada@x.com" = none :=
  have h := submit_verification_outcomes dbW "j1" dataTokW "a1" 7 jobW "tok"
    rfl rfl rfl (by decide)
  ⟨rfl, rfl, rfl, by decide, h.1 500 (.json (some "ada@x.com")) (by decide),
   h.2.1 (some "eve@x.com") (by decide), h.2.2.1,
   h.2.2.2.2.2 (.response 500 (.json (some "eve@x.com"))) "ada@x.com"⟩

/-- C1: when an Application for the (job identifier, applicant email)
pair already exists, submission fails with 409 and inserts nothing (the
database is returned untouched); when none exists and the other
preconditions hold, submission succeeds; hence applying twice in
sequence with the same pair succeeds exactly once — any second
submission for the pair, against the state a success produced, fails
with 409. -/
theorem duplicate_application_conflict (ext : GoogleResult) (db : Db) (job_id : String)
    (data : ApplicationCreate) (fresh_id : String) (now : Nat) (job : Job)
    (hj : findJob db job_id = some job) (ha : job.is_active = true)
    (hv : verifyStep ext data.google_access_token data.applicant_email = none) :
    ((∃ x ∈ db.applications, x.job_id = job_id ∧ x.applicant_email = data.applicant_email) →
      _submit_application ext db job_id data fresh_id now = (db, .error .conflict)) ∧
    ((¬ ∃ x ∈ db.applications, x.job_id = job_id ∧ x.applicant_email = data.applicant_email) →
      ∃ db2 a, _submit_application ext db job_id data fresh_id now = (db2, .ok a)) ∧
    (∀ db2 a ext2 data2 fresh2 now2,
      _submit_application ext db job_id data fresh_id now = (db2, .ok a) →
      data2.applicant_email = data.applicant_email →
      verifyStep ext2 data2.google_access_token data2.applicant_email = none →
      _submit_application ext2 db2 job_id data2 fresh2 now2 = (db2, .error .conflict)) := by
  refine ⟨?_, ?_, ?_⟩
  · intro hex
    exact submit_of_duplicate ext db job_id data fresh_id now job hj ha hv
      ((hasApplication_iff db job_id data.applicant_email).mpr hex)
  · intro hnex
    have hd : hasApplication db job_id data.applicant_email = false := by
      rcases hb : hasApplication db job_id data.applicant_email
      · rfl
      · exact absurd ((hasApplication_iff _ _ _).mp hb) hnex
    exact ⟨_, _, submit_of_fresh ext db job_id data fresh_id now job hj ha hv hd⟩
  · intro db2 a ext2 data2 fresh2 now2 hok hemail hv2
    obtain ⟨job0, hj0, ha0, _, _, haeq, hdb2⟩ :=
      submit_ok_inv ext db job_id data fresh_id now db2 a hok
    have hj0' : db.jobs.find? (fun j => j.id == job_id) = some job0 := hj0
    have hpj : (fun j => j.id == job_id) job0 = true :=
      (find?_some_decomp (fun j => j.id == job_id) db.jobs job0 hj0').2.1
    have hfind2 : findJob db2 job_id =
        some { job0 with applications_count := job0.applications_count + 1 } := by
      rw [hdb2]
      exact find?_updateFirst _ _ _ _ hj0' hpj
    have hd2 : hasApplication db2 job_id data2.applicant_email = true := by
      rw [hasApplication_iff]
      refine ⟨a, ?_, ?_, ?_⟩
      · rw [hdb2]
        exact List.mem_append.mpr (Or.inr (List.mem_singleton.mpr rfl))
      · rw [haeq]
        rfl
      · rw [haeq, hemail]
        rfl
    exact submit_of_duplicate ext2 db2 job_id data2 fresh2 now2 _ hfind2 ha0 hv2 hd2

/-- Witness for the duplicate conflict: a fresh pair succeeds against
`dbW`, and repeating the same pair against the resulting state 409s. -/
theorem duplicate_application_conflict_witness :
    findJob dbW "j1" = some jobW ∧ jobW.is_active = true ∧
    verifyStep .netError dataW.google_access_token dataW.applicant_email = none ∧
    (∃ db2 a, _submit_application .netError dbW "j1" dataW "a1" 7 = (db2, .ok a)) ∧
    _submit_application .netError dbWafter "j1" dataW "a2" 8 =
      (dbWafter, .error .conflict) :=
  have h := duplicate_application_conflict .netError dbW "j1" dataW "a1" 7 jobW rfl rfl rfl
  ⟨rfl, rfl, rfl, h.2.1 (by decide),
   h.2.2 dbWafter appW .netError dataW "a2" 8 rfl rfl rfl⟩

/-- C2: on the single-writer sequential model, a successful submission
inserts exactly one Application, increments exactly the target job's
`applications_count` by exactly one, and therefore preserves the
invariant that every job's counter equals the number of stored
Applications referencing it (job identifiers are unique, as enforced by
the collection's unique index). -/
theorem submit_preserves_counter_invariant (ext : GoogleResult) (db : Db)
    (job_id : String) (data : ApplicationCreate) (fresh_id : String) (now : Nat)
    (db' : Db) (a : Application)
    (hids : (db.jobs.map Job.id).Nodup)
    (hinv : counterInvariant db)
    (hok : _submit_application ext db job_id data fresh_id now = (db', .ok a)) :
    counterInvariant db' ∧
    db'.applications = db.applications ++ [a] ∧
    a.job_id = job_id ∧
    (∀ job, findJob db job_id = some job →
      findJob db' job_id =
        some { job with applications_count := job.applications_count + 1 }) := by
  obtain ⟨job, hj, ha, hv, hd, haeq, hdb'⟩ :=
    submit_ok_inv ext db job_id data fresh_id now db' a hok
  have hj' : db.jobs.find? (fun j => j.id == job_id) = some job := hj
  have hpj : (fun j => j.id == job_id) job = true :=
    (find?_some_decomp (fun j => j.id == job_id) db.jobs job hj').2.1
  have hjid : job.id = job_id := by simpa using hpj
  have hajid : a.job_id = job_id := by
    rw [haeq]
    rfl
  refine ⟨?_, by rw [hdb'], hajid, ?_⟩
  · obtain ⟨hsplit, _, htw⟩ := find?_some_decomp _ db.jobs job hj
    have hupd := updateFirst_eq_of_find?
      (fun j => { j with applications_count := j.applications_count + 1 }) _ db.jobs job hj
    intro j' hj'
    have hjobs' : db'.jobs =
        db.jobs.takeWhile (fun x => !(x.id == job_id)) ++
          { job with applications_count := job.applications_count + 1 } ::
            (db.jobs.dropWhile (fun x => !(x.id == job_id))).tail := by
      rw [hdb']
      exact hupd
    have happs' : db'.applications = db.applications ++ [a] := by rw [hdb']
    rw [hjobs'] at hj'
    rw [happs', List.countP_append]
    rcases List.mem_append.mp hj' with hmem | hmem
    · have hne : (j'.id == job_id) = false := htw j' hmem
      have hne2 : a.job_id ≠ j'.id := fun hc => by
        rw [hajid] at hc
        rw [← hc] at hne
        simp at hne
      have hz : List.countP (fun x => x.job_id == j'.id) [a] = 0 := by
        simp [List.countP_cons, beq_eq_false_iff_ne.mpr hne2]
      rw [hz, Nat.add_zero]
      refine hinv j' ?_
      rw [hsplit]
      exact List.mem_append.mpr (Or.inl hmem)
    · rcases List.mem_cons.mp hmem with heq | hmem2
      · have hbase := hinv job (by
          rw [hsplit]
          exact List.mem_append.mpr (Or.inr (List.mem_cons_self _ _)))
        rw [heq]
        have hone : List.countP (fun x => x.job_id == job.id) [a] = 1 := by
          simp [List.countP_cons, hajid, hjid]
        show job.applications_count + 1 =
          List.countP (fun x => x.job_id == job.id) db.applications +
            List.countP (fun x => x.job_id == job.id) [a]
        rw [hone, hbase]
      · have hmem0 : j' ∈ db.jobs := by
          rw [hsplit]
          exact List.mem_append.mpr (Or.inr (List.mem_cons.mpr (Or.inr hmem2)))
        have hnd : ((db.jobs.takeWhile (fun x => !(x.id == job_id))).map Job.id ++
            Job.id job ::
              ((db.jobs.dropWhile (fun x => !(x.id == job_id))).tail.map Job.id)).Nodup := by
          rw [← List.map_cons, ← List.map_append, ← hsplit]
          exact hids
        have hnotin : job.id ∉
            ((db.jobs.dropWhile (fun x => !(x.id == job_id))).tail.map Job.id) :=
          (List.nodup_cons.mp (List.nodup_append.mp hnd).2.1).1
        have hne : j'.id ≠ job_id := by
          intro heq2
          apply hnotin
          have hmm : j'.id ∈
              ((db.jobs.dropWhile (fun x => !(x.id == job_id))).tail.map Job.id) :=
            List.mem_map_of_mem Job.id hmem2
          rw [heq2] at hmm
          rw [hjid]
          exact hmm
        have hne2 : a.job_id ≠ j'.id := by
          rw [hajid]
          exact fun hc => hne hc.symm
        have hz : List.countP (fun x => x.job_id == j'.id) [a] = 0 := by
          simp [List.countP_cons, beq_eq_false_iff_ne.mpr hne2]
        rw [hz, Nat.add_zero]
        exact hinv j' hmem0
  · intro job2 hj2
    rw [hj] at hj2
    have hje := Option.some.inj hj2
    subst hje
    rw [hdb']
    exact find?_updateFirst _ _ _ _ hj hpj

/-- Witness for the counter invariant: submitting against `dbW` yields
`dbWafter`, whose counters again count the stored applications. -/
theorem submit_preserves_counter_invariant_witness :
    (dbW.jobs.map Job.id).Nodup ∧ counterInvariant dbW ∧
    _submit_application .netError dbW "j1" dataW "a1" 7 = (dbWafter, .ok appW) ∧
    counterInvariant dbWafter ∧
    dbWafter.applications = dbW.applications ++ [appW] ∧
    appW.job_id = "j1" ∧
    findJob dbWafter "j1" =
      some { jobW with applications_count := jobW.applications_count + 1 } :=
  have h := submit_preserves_counter_invariant .netError dbW "j1" dataW "a1" 7
    dbWafter appW (by decide) (by unfold counterInvariant; decide) rfl
  ⟨by decide, by unfold counterInvariant; decide, rfl, h.1, h.2.1, h.2.2.1,
   h.2.2.2 jobW rfl⟩

/-- C7: fetching an existing listing by identifier increments exactly
that listing's stored `views` by one — every other stored field of every
document in every collection is untouched — and the returned payload
carries the post-increment value together with the enriched company;
fetching a non-existent identifier fails 404 and changes nothing. -/
theorem get_job_views_increment (db : Db) (job_id : String) :
    (findJob db job_id = none → get_job db job_id = (db, .error .notFound)) ∧
    (∀ job, findJob db job_id = some job →
      db.jobs = db.jobs.takeWhile (fun x => !(x.id == job_id)) ++
        job :: (db.jobs.dropWhile (fun x => !(x.id == job_id))).tail ∧
      get_job db job_id =
        ({ db with
            jobs := db.jobs.takeWhile (fun x => !(x.id == job_id)) ++
              { job with views := job.views + 1 } ::
                (db.jobs.dropWhile (fun x => !(x.id == job_id))).tail },
         .ok ({ job with views := job.views + 1 },
              db.companies.find? (fun c => c.id == job.company_id)))) := by
  constructor
  · intro h
    unfold get_job
    rw [h]
  · intro job hj
    have hj' : db.jobs.find? (fun j => j.id == job_id) = some job := hj
    refine ⟨(find?_some_decomp (fun j => j.id == job_id) db.jobs job hj').1, ?_⟩
    unfold get_job
    rw [hj]
    rw [updateFirst_eq_of_find? (fun j => { j with views := j.views + 1 })
      (fun j => j.id == job_id) db.jobs job hj']
    rfl

/-- Witness for the view increment: fetching `jobW` from `dbW` bumps its
counter from 0 to 1 in storage and in the response. -/
theorem get_job_views_increment_witness :
    findJob dbW "j1" = some jobW ∧
    get_job dbW "j1" =
      ({ companies := [companyW],
         jobs := [{ jobW with views := 1 }, jobInactiveW],
         applications := [], bookmarks := [] },
       .ok ({ jobW with views := 1 }, some companyW)) ∧
    get_job dbEmpty "j1" = (dbEmpty, .error .notFound) :=
  ⟨rfl, ((get_job_views_increment dbW "j1").2 jobW rfl).2,
   (get_job_views_increment dbEmpty "j1").1 rfl⟩

/-- C10: deleting an existing job removes exactly that one job document
and nothing else — the companies collection (hence every company's
`total_jobs_posted`) and the applications and bookmarks collections,
including every record referencing the deleted job, are returned
verbatim; deleting a non-existent job fails 404 and changes nothing. -/
theorem delete_job_frame (db : Db) (job_id : String) :
    (findJob db job_id = none → delete_job db job_id = (db, .error .notFound)) ∧
    (∀ job, findJob db job_id = some job →
      db.jobs = db.jobs.takeWhile (fun x => !(x.id == job_id)) ++
        job :: (db.jobs.dropWhile (fun x => !(x.id == job_id))).tail ∧
      delete_job db job_id =
        ({ db with
            jobs := db.jobs.takeWhile (fun x => !(x.id == job_id)) ++
              (db.jobs.dropWhile (fun x => !(x.id == job_id))).tail },
         .ok ()) ∧
      (delete_job db job_id).1.companies = db.companies ∧
      (delete_job db job_id).1.applications = db.applications ∧
      (delete_job db job_id).1.bookmarks = db.bookmarks) := by
  constructor
  · intro h
    have h' : db.jobs.find? (fun j => j.id == job_id) = none := h
    unfold delete_job
    rw [deleteOne_of_find?_none (fun j => j.id == job_id) db.jobs h']
    rfl
  · intro job hj
    have hj' : db.jobs.find? (fun j => j.id == job_id) = some job := hj
    have hdel := deleteOne_of_find?_some (fun j => j.id == job_id) db.jobs job hj'
    refine ⟨(find?_some_decomp (fun j => j.id == job_id) db.jobs job hj').1, ?_⟩
    have hrun : delete_job db job_id =
        ({ db with
            jobs := db.jobs.takeWhile (fun x => !(x.id == job_id)) ++
              (db.jobs.dropWhile (fun x => !(x.id == job_id))).tail },
         .ok ()) := by
      unfold delete_job
      rw [hdel]
      rfl
    exact ⟨hrun, by rw [hrun], by rw [hrun], by rw [hrun]⟩

/-- Witness for the delete frame: deleting `jobW` from a database that
also stores an application and a bookmark for it keeps both records and
the company counter. -/
theorem delete_job_frame_witness :
    findJob dbDel "j1" = some jobW ∧
    delete_job dbDel "j1" =
      ({ companies := [companyW], jobs := [jobInactiveW],
         applications := [appW], bookmarks := [bookmarkW] },
       .ok ()) ∧
    (delete_job dbDel "j1").1.companies = dbDel.companies ∧
    (delete_job dbDel "j1").1.applications = dbDel.applications ∧
    (delete_job dbDel "j1").1.bookmarks = dbDel.bookmarks :=
  have h := (delete_job_frame dbDel "j1").2 jobW rfl
  ⟨rfl, h.2.1, h.2.2.1, h.2.2.2.1, h.2.2.2.2⟩

/-- C8: the alternate-shape entry point `POST /applications` behaves
identically to the canonical `POST /jobs/{id}/apply` invoked on its
`job_id` with the fields renamed to their canonical names, and the
renaming changes no field value. -/
theorem apply_compat_is_pure_renaming (ext : GoogleResult) (db : Db)
    (d : ApplicationCreateCompat) (fresh_id : String) (now : Nat) :
    apply_for_job_compat ext db d fresh_id now =
      apply_for_job ext db d.job_id (compatRename d) fresh_id now ∧
    (compatRename d).applicant_name = d.full_name ∧
    (compatRename d).applicant_email = d.email ∧
    (compatRename d).google_access_token = d.google_access_token ∧
    (compatRename d).phone = d.phone ∧
    (compatRename d).resume_url = d.resume_url ∧
    (compatRename d).cover_letter = d.cover_letter ∧
    (compatRename d).linkedin_url = d.linkedin_url ∧
    (compatRename d).portfolio_url = d.portfolio_url ∧
    (compatRename d).years_of_experience = d.years_experience ∧
    (compatRename d).current_institution = d.institution ∧
    (compatRename d).graduation_year = d.graduation_year :=
  ⟨rfl, rfl, rfl, rfl, rfl, rfl, rfl, rfl, rfl, rfl, rfl, rfl⟩

/-- C5: with a salary floor X supplied, a listing is in the query's
match set exactly when it satisfies every other clause and its
`salary_max` is defined and at least X — the boundary `salary_max = X`
is included, and a listing with no defined maximum is excluded. -/
theorem list_jobs_salary_filter (db : Db) (p : ListJobsParams) (X : Int) (j : Job)
    (hX : p.salary_min = some X) :
    j ∈ db.jobs.filter (matchesQuery p) ↔
      j ∈ db.jobs ∧ matchesExceptSalary p j = true ∧
        ∃ s, j.salary_max = some s ∧ X ≤ s := by
  rw [List.mem_filter]
  unfold matchesQuery
  rw [Bool.and_eq_true]
  unfold salaryClause
  rw [hX]
  cases hsm : j.salary_max with
  | none => simp [hsm]
  | some m => simp [hsm]

/-- Witness for the salary filter: with floor 25000, the listing whose
maximum is exactly 25000 matches and the listing with no maximum does
not. -/
theorem list_jobs_salary_filter_witness :
    pSalW.salary_min = some 25000 ∧
    (jobW ∈ dbSalW.jobs.filter (matchesQuery pSalW) ↔
      jobW ∈ dbSalW.jobs ∧ matchesExceptSalary pSalW jobW = true ∧
        ∃ s, jobW.salary_max = some s ∧ (25000 : Int) ≤ s) ∧
    jobW ∈ dbSalW.jobs.filter (matchesQuery pSalW) ∧
    jobNoSalW ∉ dbSalW.jobs.filter (matchesQuery pSalW) :=
  ⟨rfl, list_jobs_salary_filter dbSalW pSalW 25000 jobW rfl, by decide, by decide⟩

/-- C6: for page ≥ 1 and page_size in [1,50], the returned page is the
`(page-1)*page_size` offset window of the sorted matches with at most
`page_size` entries; `total` counts every match; `total_pages` is the
ceiling of total over page_size, floored at 1 even with zero matches;
and a page past the last match yields the empty list without error. -/
theorem list_jobs_pagination (db : Db) (p : ListJobsParams)
    (hpage : 1 ≤ p.page) (hsize1 : 1 ≤ p.page_size) (hsize2 : p.page_size ≤ 50) :
    (list_jobs db p).jobs.map Prod.fst =
      ((sortedMatches db p).drop ((p.page - 1) * p.page_size)).take p.page_size ∧
    (list_jobs db p).jobs.length ≤ p.page_size ∧
    (list_jobs db p).pagination.total = (db.jobs.filter (matchesQuery p)).length ∧
    1 ≤ (list_jobs db p).pagination.total_pages ∧
    (list_jobs db p).pagination.total ≤
      (list_jobs db p).pagination.total_pages * p.page_size ∧
    ((list_jobs db p).pagination.total = 0 →
      (list_jobs db p).pagination.total_pages = 1) ∧
    (0 < (list_jobs db p).pagination.total →
      ((list_jobs db p).pagination.total_pages - 1) * p.page_size <
        (list_jobs db p).pagination.total) ∧
    ((list_jobs db p).pagination.total ≤ (p.page - 1) * p.page_size →
      (list_jobs db p).jobs = []) := by
  refine ⟨?_, ?_, rfl, ?_, ?_, ?_, ?_, ?_⟩
  · show ((((sortedMatches db p).drop ((p.page - 1) * p.page_size)).take
        p.page_size).map (enrichJob db)).map Prod.fst = _
    rw [List.map_map]
    exact List.map_id' _
  · show ((((sortedMatches db p).drop ((p.page - 1) * p.page_size)).take
        p.page_size).map (enrichJob db)).length ≤ p.page_size
    rw [List.length_map]
    exact List.length_take_le _ _
  · exact le_max_left 1 _
  · show (db.jobs.filter (matchesQuery p)).length ≤
      max 1 (((db.jobs.filter (matchesQuery p)).length + p.page_size - 1) /
        p.page_size) * p.page_size
    calc (db.jobs.filter (matchesQuery p)).length
        ≤ (((db.jobs.filter (matchesQuery p)).length + p.page_size - 1) /
            p.page_size) * p.page_size :=
          ceil_div_lower _ p.page_size hsize1
      _ ≤ max 1 (((db.jobs.filter (matchesQuery p)).length + p.page_size - 1) /
            p.page_size) * p.page_size :=
          mul_le_mul_right' (le_max_right 1 _) p.page_size
  · intro h0
    have h0' : (db.jobs.filter (matchesQuery p)).length = 0 := h0
    show max 1 (((db.jobs.filter (matchesQuery p)).length + p.page_size - 1) /
      p.page_size) = 1
    rw [h0']
    have hz : (0 + p.page_size - 1) / p.page_size = 0 :=
      Nat.div_eq_of_lt (by omega)
    rw [hz]
    simp
  · intro hpos
    have hpos' : 0 < (db.jobs.filter (matchesQuery p)).length := hpos
    have hq1 : 1 ≤ ((db.jobs.filter (matchesQuery p)).length + p.page_size - 1) /
        p.page_size := ceil_div_pos _ p.page_size hsize1 hpos'
    show (max 1 (((db.jobs.filter (matchesQuery p)).length + p.page_size - 1) /
      p.page_size) - 1) * p.page_size < (db.jobs.filter (matchesQuery p)).length
    rw [max_eq_right hq1]
    exact ceil_div_upper _ p.page_size hsize1 hpos'
  · intro hle
    have hle' : (db.jobs.filter (matchesQuery p)).length ≤
        (p.page - 1) * p.page_size := hle
    show ((((sortedMatches db p).drop ((p.page - 1) * p.page_size)).take
        p.page_size).map (enrichJob db)) = []
    have hlen : (sortedMatches db p).length ≤ (p.page - 1) * p.page_size := by
      unfold sortedMatches
      rw [sortJobs_length]
      exact hle'
    rw [List.drop_eq_nil_of_le hlen, List.take_nil, List.map_nil]

/-- Witness for pagination: over the two matching listings of `dbSalW`
with page size 1, page 2 holds the second entry of the sorted cursor and
total_pages is 2. -/
theorem list_jobs_pagination_witness :
    1 ≤ pPageW.page ∧ 1 ≤ pPageW.page_size ∧ pPageW.page_size ≤ 50 ∧
    (list_jobs dbSalW pPageW).jobs.map Prod.fst =
      ((sortedMatches dbSalW pPageW).drop
        ((pPageW.page - 1) * pPageW.page_size)).take pPageW.page_size ∧
    (list_jobs dbSalW pPageW).jobs.length ≤ pPageW.page_size ∧
    (list_jobs dbSalW pPageW).pagination.total =
      (dbSalW.jobs.filter (matchesQuery pPageW)).length ∧
    1 ≤ (list_jobs dbSalW pPageW).pagination.total_pages ∧
    ((list_jobs dbSalW pPageW).pagination.total = 0 →
      (list_jobs dbSalW pPageW).pagination.total_pages = 1) ∧
    ((list_jobs dbSalW pPageW).pagination.total ≤
        (pPageW.page - 1) * pPageW.page_size →
      (list_jobs dbSalW pPageW).jobs = []) :=
  have h := list_jobs_pagination dbSalW pPageW (by decide) (by decide) (by decide)
  ⟨by decide, by decide, by decide, h.1, h.2.1, h.2.2.1, h.2.2.2.1,
   h.2.2.2.2.2.1, h.2.2.2.2.2.2.2⟩

end CareerNest
